import Mathlib

/-!
Package `v1` of xpay-sdk-go: the signing and envelope protocol.

A shallow embedding of `src/v1/client.go` and `src/v1/entity.go`.

* Go `string` and `[]byte` values are byte sequences: `GoString`.
* Go maps `map[string]string` are association lists with pairwise distinct keys: `StrMap`.
* Calls into other packages (`crypto/rsa`, `encoding/base64`, `encoding/json`, `net/http`,
  `encoding/pem`, `crypto/x509`, `go.uuid`, `time`) are fields of parameter records; the
  functions of this repository are defined over every choice of them.
* A Go function that can panic returns an `Outcome`.
-/

namespace Xpay

/-! ## Strings -/

/-- Byte sequence: the contents of a Go `string` or `[]byte`. Each element is one byte. -/
abbrev GoString := List Nat

/-- The bytes of a Go string literal (its UTF-8 encoding). -/
def lit (s : String) : GoString := (s.data.flatMap String.utf8EncodeChar).map UInt8.toNat

/-- Go's `<` on strings: lexicographic comparison of the bytes. -/
def stringLess : GoString → GoString → Bool
  | [], [] => false
  | [], _ :: _ => true
  | _ :: _, [] => false
  | a :: as, b :: bs => if a < b then true else if b < a then false else stringLess as bs

/-- Insertion of a string into an ascending list, before the first element greater than it. -/
def insertString (k : GoString) : List GoString → List GoString
  | [] => [k]
  | x :: xs => if stringLess k x then k :: x :: xs else x :: insertString k xs

/-- The result of `sort.Strings`: the strings in ascending order of `stringLess`. -/
def sortStrings : List GoString → List GoString
  | [] => []
  | k :: ks => insertString k (sortStrings ks)

/-- One-byte white space of `unicode.IsSpace`: tab, line feed, vertical tab, form feed,
carriage return, space. -/
def isSpace1 (a : Nat) : Bool :=
  a == 9 || a == 10 || a == 11 || a == 12 || a == 13 || a == 32

/-- Two-byte UTF-8 encodings of white space: U+0085 and U+00A0. -/
def isSpace2 (a b : Nat) : Bool :=
  a == 0xC2 && (b == 0x85 || b == 0xA0)

/-- Three-byte UTF-8 encodings of white space: U+1680, U+2000 to U+200A, U+2028, U+2029,
U+202F, U+205F and U+3000. -/
def isSpace3 (a b c : Nat) : Bool :=
  (a == 0xE1 && b == 0x9A && c == 0x80) ||
  (a == 0xE2 && b == 0x80 && ((0x80 ≤ c && c ≤ 0x8A) || c == 0xA8 || c == 0xA9 || c == 0xAF)) ||
  (a == 0xE2 && b == 0x81 && c == 0x9F) ||
  (a == 0xE3 && b == 0x80 && c == 0x80)

/-- Removal of the leading white-space runes of a string. -/
def trimLeftSpace : GoString → GoString
  | [] => []
  | a :: rest =>
    if isSpace1 a then trimLeftSpace rest
    else match rest with
      | [] => [a]
      | b :: rest2 =>
        if isSpace2 a b then trimLeftSpace rest2
        else match rest2 with
          | [] => [a, b]
          | c :: rest3 =>
            if isSpace3 a b c then trimLeftSpace rest3
            else a :: b :: c :: rest3

/-- Removal of the trailing white-space runes, on the reversed string (last byte first). -/
def trimRightSpaceRev : GoString → GoString
  | [] => []
  | c :: rest =>
    if isSpace1 c then trimRightSpaceRev rest
    else match rest with
      | [] => [c]
      | b :: rest2 =>
        if isSpace2 b c then trimRightSpaceRev rest2
        else match rest2 with
          | [] => [c, b]
          | a :: rest3 =>
            if isSpace3 a b c then trimRightSpaceRev rest3
            else c :: b :: a :: rest3

/-- Removal of the trailing white-space runes of a string. -/
def trimRightSpace (s : GoString) : GoString := (trimRightSpaceRev s.reverse).reverse

/-- The result of `strings.TrimSpace`: leading and trailing white space (as defined by
Unicode) removed. -/
def TrimSpace (s : GoString) : GoString := trimRightSpace (trimLeftSpace s)

/-- The result of `strings.Trim(s, cutset)` for a cutset of one ASCII byte `c`: every leading
and every trailing byte equal to `c` is removed (`trimLeftByte (trimRightByte s c) c`). -/
def Trim (s : GoString) (c : Nat) : GoString :=
  (s.rdropWhile (fun b => b == c)).dropWhile (fun b => b == c)

/-- Decimal digits of `n`, most significant first; `fuel` bounds the number of digits. -/
def decimalDigits : Nat → Nat → GoString
  | 0, _ => []
  | fuel + 1, n => if n < 10 then [48 + n] else decimalDigits fuel (n / 10) ++ [48 + n % 10]

/-- Decimal text of a natural number. -/
def formatBits (n : Nat) : GoString := decimalDigits (n + 1) n

/-- The result of `strconv.FormatInt(i, 10)`. -/
def FormatInt (i : Int) : GoString :=
  if i < 0 then 45 :: formatBits i.natAbs else formatBits i.natAbs

/-! ## Maps -/

/-- Go `map[string]string`: the entries, with pairwise distinct keys, in iteration order. -/
abbrev StrMap := List (GoString × GoString)

/-- Map index expression `m[k]`: the value stored under `k`, the empty string when absent. -/
def StrMap.get (m : StrMap) (k : GoString) : GoString := (m.lookup k).getD []

/-- Second result of `_, ok := m[k]`. -/
def StrMap.contains (m : StrMap) (k : GoString) : Bool := (m.lookup k).isSome

/-- Builtin `delete(m, k)`. -/
def StrMap.delete (m : StrMap) (k : GoString) : StrMap := m.filter (fun p => p.1 != k)

/-- Keys visited by `for k := range m`. -/
def StrMap.keys (m : StrMap) : List GoString := m.map Prod.fst

/-! ## entity.go -/

/-- Outbound envelope. -/
structure Request where
  RequestNo : GoString
  PlatformCode : GoString
  Timestamp : Int
  Sign : GoString
  Content : GoString
deriving DecidableEq, Repr

/-- Inbound envelope, for responses and for notifications. -/
structure Container where
  Timestamp : Int
  Sign : GoString
  Code : GoString
  Msg : GoString
  Content : GoString
deriving DecidableEq, Repr

/-- Body of `(*Request).ToStringMap`. -/
def Request.ToStringMap (c : Request) : StrMap :=
  [ (lit "request_no", c.RequestNo),
    (lit "platform_code", c.PlatformCode),
    (lit "timestamp", FormatInt c.Timestamp),
    (lit "sign", c.Sign),
    (lit "content", c.Content) ]

/-- Body of `(*Container).ToStringMap`. -/
def Container.ToStringMap (c : Container) : StrMap :=
  [ (lit "timestamp", FormatInt c.Timestamp),
    (lit "code", c.Code),
    (lit "msg", c.Msg),
    (lit "sign", c.Sign),
    (lit "content", c.Content) ]

/-- The values of interface type `Signable`: the two types with a `ToStringMap` method. -/
inductive Signable where
  | request (r : Request)
  | container (c : Container)
deriving DecidableEq, Repr

/-- Method call `s.ToStringMap()` through the interface. -/
def Signable.ToStringMap : Signable → StrMap
  | .request r => r.ToStringMap
  | .container c => c.ToStringMap

/-- The record with its `Sign` field assigned, as in `req.Sign = ...`. -/
def Signable.setSign : Signable → GoString → Signable
  | .request r, s => .request { r with Sign := s }
  | .container c, s => .container { c with Sign := s }

/-- The `Sign` field of a record. -/
def Signable.Sign : Signable → GoString
  | .request r => r.Sign
  | .container c => c.Sign

/-! ## client.go: canonical string -/

/-- One iteration of the loop of `mapToSignString`: the pair `k=v&` is written when the
trimmed value is not empty. -/
def writePair (params : StrMap) (buff : GoString) (k : GoString) : GoString :=
  let v := TrimSpace (params.get k)
  if v != [] then buff ++ (k ++ lit "=" ++ v ++ lit "&") else buff

/-- Body of `mapToSignString`. -/
def mapToSignString (params : StrMap) : GoString :=
  let keys := sortStrings params.keys
  let buff := keys.foldl (writePair params) []
  Trim buff 38

/-! ## client.go: errors, panics, library calls -/

/-- Go `error` values, by origin and message. -/
inductive GoError where
  /-- An error value returned by a call into another package, passed on unchanged. -/
  | library (msg : GoString)
  /-- An error value built in client.go by `errors.New` or `fmt.Errorf`. -/
  | errorString (msg : GoString)
deriving DecidableEq, Repr

/-- Method `Error()`: the message. -/
def GoError.Error : GoError → GoString
  | .library msg => msg
  | .errorString msg => msg

/-- Result of running a Go function that may panic. -/
inductive Outcome (α : Type) where
  | panic
  | ret (a : α)
deriving DecidableEq, Repr

/-- The calls into `crypto`, `crypto/rsa` and `encoding/base64`, over RSA private keys `Priv`
and public keys `Pub`. -/
structure Crypto (Priv Pub : Type) where
  /-- Digest `crypto.SHA1.New()`, `Write`, `Sum(nil)`. -/
  SHA1 : GoString → GoString
  /-- Call `rsa.SignPKCS1v15(rand.Reader, priv, crypto.SHA1, hashed)`. -/
  SignPKCS1v15 : Priv → GoString → Except GoError GoString
  /-- Call `rsa.VerifyPKCS1v15(pub, crypto.SHA1, hashed, sig)`; `none` is the nil error. -/
  VerifyPKCS1v15 : Pub → GoString → GoString → Option GoError
  /-- Call `base64.StdEncoding.EncodeToString`. -/
  EncodeToString : GoString → GoString
  /-- Call `base64.StdEncoding.DecodeString`. -/
  DecodeString : GoString → Except GoError GoString

/-- The calls into `encoding/json`, for a business payload type `D` and a target type `R`. -/
structure Json (D R : Type) where
  /-- Call `json.Marshal(data)` on the business payload. -/
  MarshalData : D → Except GoError GoString
  /-- Call `json.Marshal(req)` on the envelope. -/
  MarshalRequest : Request → Except GoError GoString
  /-- Call `json.Unmarshal(body, &container)` on a zero `Container`. -/
  UnmarshalContainer : GoString → Except GoError Container
  /-- Call `json.Unmarshal(content, data)`: the error and the target afterwards (the target
  may have been written to even when an error is returned). -/
  UnmarshalData : GoString → R → Option GoError × R

/-- The calls into `go.uuid`, `time` and `net/http`. -/
structure Net where
  /-- Value of `uuid.NewV4().String()`. -/
  NewV4 : GoString
  /-- Value of `time.Now().Unix()`. -/
  Now : Int
  /-- Error of `http.NewRequest("POST", url, body)`; `none` is the nil error. -/
  NewRequest : GoString → GoString → Option GoError
  /-- Call `httpClient.Do` on the request with this url and body: an error, or the status code
  together with the result of `ioutil.ReadAll(resp.Body)`. -/
  Do : GoString → GoString → Except GoError (Int × Except GoError GoString)

/-- Dynamic type of a key returned by the `crypto/x509` parsers. -/
inductive ParsedKey (K : Type) where
  | rsa (k : K)
  | other
deriving DecidableEq, Repr

/-- The calls into `io/ioutil`, `encoding/pem` and `crypto/x509`. -/
structure KeyFiles (Priv Pub : Type) where
  /-- Call `ioutil.ReadFile`. -/
  ReadFile : GoString → Except GoError GoString
  /-- First result of `pem.Decode`: `none` is the nil block, `some b` a block with `Bytes = b`. -/
  Decode : GoString → Option GoString
  /-- Call `x509.ParsePKCS8PrivateKey`. -/
  ParsePKCS8PrivateKey : GoString → Except GoError (ParsedKey Priv)
  /-- Call `x509.ParsePKIXPublicKey`. -/
  ParsePKIXPublicKey : GoString → Except GoError (ParsedKey Pub)

/-- The fields of `Client` (the `httpClient` is the `Do` of `Net`). -/
structure Client (Priv Pub : Type) where
  platformCode : GoString
  gateway : GoString
  appPrivateKey : Priv
  xpayPublicKey : Pub
deriving DecidableEq, Repr

/-! ## client.go: signing and verification -/

/-- Body of `sha1`. -/
def sha1 {Priv Pub : Type} (P : Crypto Priv Pub) (input : GoString) : GoString := P.SHA1 input

/-- The variable `signCode` of `checkSign`: the string that is hashed on the verify path. -/
def checkSign_signCode (s : Signable) : GoString :=
  let params := s.ToStringMap
  let params := params.delete (lit "sign")
  mapToSignString params

/-- Body of `(*Client).checkSign`. -/
def checkSign {Priv Pub : Type} (P : Crypto Priv Pub) (c : Client Priv Pub) (s : Signable) :
    Bool :=
  let params := s.ToStringMap
  if params.get (lit "sign") = [] then false
  else
    match P.DecodeString (params.get (lit "sign")) with
    | .error _ => false
    | .ok sign =>
      match P.VerifyPKCS1v15 c.xpayPublicKey (sha1 P (checkSign_signCode s)) sign with
      | some _ => false
      | none => true

/-- The variable `signString` of `createSign`: the string that is hashed on the sign path. -/
def createSign_signString (s : Signable) : GoString :=
  let params := s.ToStringMap
  let params := if params.contains (lit "sign") then params.delete (lit "sign") else params
  mapToSignString params

/-- Body of `(*Client).createSign`; it panics when the RSA signing call returns an error. -/
def createSign {Priv Pub : Type} (P : Crypto Priv Pub) (c : Client Priv Pub) (s : Signable) :
    Outcome GoString :=
  match P.SignPKCS1v15 c.appPrivateKey (sha1 P (createSign_signString s)) with
  | .error _ => .panic
  | .ok sign => .ret (P.EncodeToString sign)

/-! ## client.go: request building -/

/-- The `Request` literal of `createRequestBody`, before `Sign` is assigned. -/
def createRequestBody_req {Priv Pub : Type} (N : Net) (c : Client Priv Pub)
    (dataBytes : GoString) : Request :=
  { RequestNo := N.NewV4
    PlatformCode := c.platformCode
    Timestamp := N.Now
    Sign := []
    Content := dataBytes }

/-- Body of `(*Client).createRequestBody`: the bytes of the reader it returns, or the error. -/
def createRequestBody {Priv Pub D R : Type} (P : Crypto Priv Pub) (J : Json D R) (N : Net)
    (c : Client Priv Pub) (data : D) : Outcome (Except GoError GoString) :=
  match J.MarshalData data with
  | .error err => .ret (.error err)
  | .ok dataBytes =>
    let req := createRequestBody_req N c dataBytes
    match createSign P c (.request req) with
    | .panic => .panic
    | .ret sign =>
      let req := { req with Sign := sign }
      match J.MarshalRequest req with
      | .error err => .ret (.error err)
      | .ok jsonBytes => .ret (.ok jsonBytes)

/-! ## client.go: unwrapping -/

/-- Body of `(*Client).ParseNotification`; `body` is the result of `ioutil.ReadAll(r.Body)`.
The result is the returned error (`none` is nil) and the target `data` afterwards. -/
def ParseNotification {Priv Pub D R : Type} (P : Crypto Priv Pub) (J : Json D R)
    (c : Client Priv Pub) (body : Except GoError GoString) (data : R) : Option GoError × R :=
  match body with
  | .error err => (some err, data)
  | .ok body =>
    match J.UnmarshalContainer body with
    | .error err => (some err, data)
    | .ok container =>
      if !checkSign P c (.container container) then
        (some (.errorString (lit "sign error")), data)
      else if container.Code != lit "0000" then
        (some (.errorString (lit "ERROR:" ++ container.Code ++ lit " , " ++ container.Msg)), data)
      else
        match J.UnmarshalData container.Content data with
        | (some err, data) =>
          (some (.errorString (err.Error ++ lit ",(data:" ++ container.Content ++ lit ")")), data)
        | (none, data) => (none, data)

/-- The part of `(*Client).request` that follows `ioutil.ReadAll(resp.Body)`: the status check
and the handling of the response body. -/
def request_response {Priv Pub D R : Type} (P : Crypto Priv Pub) (J : Json D R)
    (c : Client Priv Pub) (StatusCode : Int) (respBody : GoString) (result : R) :
    Option GoError × R :=
  if StatusCode != 200 then
    (some (.errorString (lit "response(" ++ FormatInt StatusCode ++ lit "):" ++ respBody)), result)
  else
    match J.UnmarshalContainer respBody with
    | .error err => (some err, result)
    | .ok res =>
      if !checkSign P c (.container res) then
        (some (.errorString (lit "response data sign error")), result)
      else if res.Code != lit "0000" then
        (some (.errorString (lit "ERROR:" ++ res.Code ++ lit " , " ++ res.Msg)), result)
      else
        match J.UnmarshalData res.Content result with
        | (some err, result) =>
          (some (.errorString (err.Error ++ lit ",(data:" ++ res.Content ++ lit ")")), result)
        | (none, result) => (none, result)

/-- Body of `(*Client).request`. -/
def request {Priv Pub D R : Type} (P : Crypto Priv Pub) (J : Json D R) (N : Net)
    (c : Client Priv Pub) (data : D) (url : GoString) (result : R) :
    Outcome (Option GoError × R) :=
  match createRequestBody P J N c data with
  | .panic => .panic
  | .ret (.error err) => .ret (some err, result)
  | .ret (.ok body) =>
    match N.NewRequest url body with
    | some err => .ret (some err, result)
    | none =>
      match N.Do url body with
      | .error err => .ret (some err, result)
      | .ok (_, .error err) => .ret (some err, result)
      | .ok (StatusCode, .ok respBody) => .ret (request_response P J c StatusCode respBody result)

/-! ## client.go: construction -/

/-- Body of `loadAppPrivateKey`: `.ok k` is the return `(k, nil)`, `.error err` the return
`(nil, err)`. The field access `block.Bytes` panics on a nil block, the type assertion
`private.(*rsa.PrivateKey)` panics on a key of another type. -/
def loadAppPrivateKey {Priv Pub : Type} (F : KeyFiles Priv Pub) (appPrivateKeyPath : GoString) :
    Outcome (Except GoError Priv) :=
  match F.ReadFile appPrivateKeyPath with
  | .error err => .ret (.error err)
  | .ok pemData =>
    match F.Decode pemData with
    | none => .panic
    | some blockBytes =>
      match F.ParsePKCS8PrivateKey blockBytes with
      | .error err => .ret (.error err)
      | .ok (.rsa k) => .ret (.ok k)
      | .ok .other => .panic

/-- Body of `loadXpayPublicKey`, with the same two panics. -/
def loadXpayPublicKey {Priv Pub : Type} (F : KeyFiles Priv Pub) (xpayPublicKeyPath : GoString) :
    Outcome (Except GoError Pub) :=
  match F.ReadFile xpayPublicKeyPath with
  | .error err => .ret (.error err)
  | .ok pemData =>
    match F.Decode pemData with
    | none => .panic
    | some blockBytes =>
      match F.ParsePKIXPublicKey blockBytes with
      | .error err => .ret (.error err)
      | .ok (.rsa k) => .ret (.ok k)
      | .ok .other => .panic

/-- Body of `NewClient`: the client and the error it returns (`none` is nil). -/
def NewClient {Priv Pub : Type} (F : KeyFiles Priv Pub)
    (platformCode gateway appPrivateKeyPath xpayPublicKeyPath : GoString) :
    Outcome (Option (Client Priv Pub) × Option GoError) :=
  match loadAppPrivateKey F appPrivateKeyPath with
  | .panic => .panic
  | .ret (.error err) => .ret (none, some err)
  | .ret (.ok appPrivateKey) =>
    match loadXpayPublicKey F xpayPublicKeyPath with
    | .panic => .panic
    | .ret (.error err) => .ret (none, some err)
    | .ret (.ok xpayPublicKey) =>
      .ret (some { platformCode := platformCode
                   gateway := gateway
                   appPrivateKey := appPrivateKey
                   xpayPublicKey := xpayPublicKey }, none)

/-! ## Auxiliary definitions -/

/-- Text written by one iteration of the loop of `mapToSignString` for key `k` with value
`v`: `k=TrimSpace v&`, or nothing when the trimmed value is empty. -/
def pairText (k v : GoString) : GoString :=
  if TrimSpace v != [] then k ++ lit "=" ++ TrimSpace v ++ lit "&" else []

/-- Value of a string of decimal digits. -/
def decimalValue (s : GoString) : Nat := s.foldl (fun acc d => 10 * acc + (d - 48)) 0

/-! ## Reference definitions, written from the specification -/

/-- Reference canonical string in the words of the specification (section 4.1): drop the
`sign` key, sort the remaining keys ascending by byte value, keep each key whose trimmed value
is non-empty, emit `key=value` from the key and its value, join the pairs with `&`. -/
def spec_toCanonicalString (record : StrMap) : GoString :=
  let remaining := record.delete (lit "sign")
  let keys := sortStrings remaining.keys
  let kept := keys.filter (fun k => TrimSpace (remaining.get k) != [])
  (lit "&").intercalate (kept.map (fun k => k ++ lit "=" ++ remaining.get k))

/-- The canonical string with each kept value rendered in its trimmed form: the reference
`spec_toCanonicalString` with `key=TrimSpace value` in place of `key=value`. -/
def trimmedCanonicalString (record : StrMap) : GoString :=
  let remaining := record.delete (lit "sign")
  let keys := sortStrings remaining.keys
  let kept := keys.filter (fun k => TrimSpace (remaining.get k) != [])
  (lit "&").intercalate (kept.map (fun k => k ++ lit "=" ++ TrimSpace (remaining.get k)))

/-- Reasons of the terminal state `Rejected(reason)` of the unwrapper (section 4.4). -/
inductive Rejection where
  | malformedEnvelope (err : GoError)
  | signatureInvalid
  | remoteError (code msg : GoString)
  | payloadDecode (err : GoError) (rawContent : GoString)
deriving DecidableEq, Repr

/-- Final states of the unwrapper's state machine (section 4.4), with the caller's target. -/
inductive UnwrapState (R : Type) where
  | rejected (reason : Rejection) (target : R)
  | payloadDecoded (target : R)
deriving DecidableEq, Repr

/-- The unwrapper in the words of the specification (section 4.4), in strict order and
stopping at the first failure: deserialize the envelope, verify its signature, compare the
status code to the success constant, deserialize the content into the target. -/
def spec_unwrap {Priv Pub D R : Type} (P : Crypto Priv Pub) (J : Json D R)
    (c : Client Priv Pub) (rawBytes : GoString) (target : R) : UnwrapState R :=
  match J.UnmarshalContainer rawBytes with
  | .error err => .rejected (.malformedEnvelope err) target
  | .ok envelope =>
    if checkSign P c (.container envelope) = false then .rejected .signatureInvalid target
    else if envelope.Code ≠ lit "0000" then
      .rejected (.remoteError envelope.Code envelope.Msg) target
    else
      match J.UnmarshalData envelope.Content target with
      | (some err, target) => .rejected (.payloadDecode err envelope.Content) target
      | (none, target) => .payloadDecoded target

/-- How a final state of the unwrapper is returned to the Go caller as an error and a target;
`signText` is the message used for an invalid signature. -/
def UnwrapState.returned {R : Type} (signText : GoString) : UnwrapState R → Option GoError × R
  | .rejected (.malformedEnvelope err) target => (some err, target)
  | .rejected .signatureInvalid target => (some (.errorString signText), target)
  | .rejected (.remoteError code msg) target =>
    (some (.errorString (lit "ERROR:" ++ code ++ lit " , " ++ msg)), target)
  | .rejected (.payloadDecode err rawContent) target =>
    (some (.errorString (err.Error ++ lit ",(data:" ++ rawContent ++ lit ")")), target)
  | .payloadDecoded target => (none, target)

/-! ## A small instance of the library calls, for evaluation on concrete inputs -/

/-- Hexadecimal digit of a value below sixteen. -/
def hexDigit (n : Nat) : Nat := if n < 10 then 48 + n else 87 + n

/-- Value of a hexadecimal digit. -/
def hexValue (d : Nat) : Option Nat :=
  if 48 ≤ d ∧ d ≤ 57 then some (d - 48)
  else if 97 ≤ d ∧ d ≤ 102 then some (d - 87)
  else none

/-- Text encoding of bytes, two hexadecimal digits per byte. -/
def hexEncode (b : GoString) : GoString :=
  b.flatMap (fun x => [hexDigit (x / 16), hexDigit (x % 16)])

/-- Decoding of `hexEncode`; text of odd length or with another byte is an error. -/
def hexDecode : GoString → Except GoError GoString
  | [] => .ok []
  | [_] => .error (.library (lit "illegal data"))
  | a :: b :: rest =>
    match hexValue a, hexValue b, hexDecode rest with
    | some x, some y, .ok r => .ok ((16 * x + y) :: r)
    | _, _, _ => .error (.library (lit "illegal data"))

/-- Stand-in for the cryptographic calls: the digest of a string is the string, the signature
of a digest under key `k` is the digest preceded by `k`, accepted under the same `k` only; the
text encoding is hexadecimal. -/
def demoCrypto : Crypto Nat Nat where
  SHA1 := fun input => input
  SignPKCS1v15 := fun priv hashed => .ok (priv :: hashed)
  VerifyPKCS1v15 := fun pub hashed sig =>
    if sig = pub :: hashed then none else some (.library (lit "verification error"))
  EncodeToString := hexEncode
  DecodeString := hexDecode

/-- A client with key `7` on both sides. -/
def demoClient : Client Nat Nat :=
  { platformCode := lit "P1", gateway := lit "https://gateway", appPrivateKey := 7,
    xpayPublicKey := 7 }

/-- An envelope with status `0000` and a signature that does not verify. -/
def demoForged : Container :=
  { Timestamp := 1700000000, Sign := lit "00", Code := lit "0000", Msg := lit "ok",
    Content := lit "T1" }

/-- The string signed for an envelope with timestamp 5, status `9999`, message `no`. -/
def demoFailedString : GoString := lit "code=9999&msg=no&timestamp=5"

/-- An envelope with status `9999`, signed under key `7`. -/
def demoFailed : Container :=
  { Timestamp := 5, Sign := hexEncode (7 :: demoFailedString), Code := lit "9999",
    Msg := lit "no", Content := [] }

/-- The string signed for an envelope with timestamp 5, status `0000`, message `ok`,
content `T1`. -/
def demoPaidString : GoString := lit "code=0000&content=T1&msg=ok&timestamp=5"

/-- An envelope with status `0000`, signed under key `7`. -/
def demoPaid : Container :=
  { Timestamp := 5, Sign := hexEncode (7 :: demoPaidString), Code := lit "0000",
    Msg := lit "ok", Content := lit "T1" }

/-- Stand-in for the JSON calls, with payloads and targets that are plain text: three bodies
decode to the three envelopes above, every other body is malformed; decoding a content
overwrites the target, and fails on empty content. -/
def demoJson : Json GoString GoString where
  MarshalData := fun data => .ok data
  MarshalRequest := fun req =>
    .ok (req.RequestNo ++ lit "|" ++ req.PlatformCode ++ lit "|" ++ FormatInt req.Timestamp ++
      lit "|" ++ req.Sign ++ lit "|" ++ req.Content)
  UnmarshalContainer := fun body =>
    if body = lit "forged" then .ok demoForged
    else if body = lit "failed" then .ok demoFailed
    else if body = lit "paid" then .ok demoPaid
    else .error (.library (lit "invalid character"))
  UnmarshalData := fun content _ =>
    if content = [] then (some (.library (lit "unexpected end of JSON input")), content)
    else (none, content)

/-- Stand-in for the identifier, the clock and the transport. -/
def demoNet : Net where
  NewV4 := lit "6ba7b810-9dad-41d1-80b4-00c04fd430c8"
  Now := 1700000000
  NewRequest := fun _ _ => none
  Do := fun _ _ => .ok (200, .ok (lit "paid"))

/-- Stand-in for the key files: `app.pem` and `xpay.pem` hold an RSA key in a PEM block,
`ec.pem` holds a key of another type in a PEM block, `empty.pem` is an empty file, any other
path cannot be read. A PEM block is the text after `PEM:`. -/
def demoKeyFiles : KeyFiles Nat Nat where
  ReadFile := fun path =>
    if path = lit "app.pem" then .ok (lit "PEM:RSA")
    else if path = lit "xpay.pem" then .ok (lit "PEM:RSA")
    else if path = lit "ec.pem" then .ok (lit "PEM:EC")
    else if path = lit "empty.pem" then .ok []
    else .error (.library (lit "no such file or directory"))
  Decode := fun pemData =>
    match pemData with
    | 80 :: 69 :: 77 :: 58 :: rest => some rest
    | _ => none
  ParsePKCS8PrivateKey := fun der =>
    if der = lit "RSA" then .ok (.rsa 7)
    else if der = lit "EC" then .ok .other
    else .error (.library (lit "x509: failed to parse private key"))
  ParsePKIXPublicKey := fun der =>
    if der = lit "RSA" then .ok (.rsa 7)
    else if der = lit "EC" then .ok .other
    else .error (.library (lit "x509: failed to parse public key"))

/-! # Properties -/

section Sorting

/-- No string is less than itself. -/
theorem stringLess_irrefl (a : GoString) : stringLess a a = false := by
  induction a with
  | nil => rfl
  | cons x xs ih => simp [stringLess, ih]

/-- The order of `stringLess` is transitive. -/
theorem stringLess_trans : ∀ a b c : GoString,
    stringLess a b = true → stringLess b c = true → stringLess a c = true := by
  intro a
  induction a with
  | nil =>
    intro b c hab hbc
    cases b with
    | nil => simp [stringLess] at hab
    | cons y ys =>
      cases c with
      | nil => simp [stringLess] at hbc
      | cons z zs => simp [stringLess]
  | cons x xs ih =>
    intro b c hab hbc
    cases b with
    | nil => simp [stringLess] at hab
    | cons y ys =>
      cases c with
      | nil => simp [stringLess] at hbc
      | cons z zs =>
        simp only [stringLess] at hab hbc ⊢
        by_cases hxy : x < y
        · by_cases hyz : y < z
          · have : x < z := by omega
            simp [this]
          · by_cases hzy : z < y
            · simp [hyz, hzy] at hbc
            · have : x < z := by omega
              simp [this]
        · by_cases hyx : y < x
          · simp [hxy, hyx] at hab
          · simp only [hxy, hyx, if_false] at hab
            by_cases hyz : y < z
            · have : x < z := by omega
              simp [this]
            · by_cases hzy : z < y
              · simp [hyz, hzy] at hbc
              · simp only [hyz, hzy, if_false] at hbc
                have h1 : ¬ x < z := by omega
                have h2 : ¬ z < x := by omega
                simp only [h1, h2, if_false]
                exact ih ys zs hab hbc

/-- Two strings of which neither is less than the other are equal. -/
theorem stringLess_antisymm : ∀ a b : GoString,
    stringLess a b = false → stringLess b a = false → a = b := by
  intro a
  induction a with
  | nil =>
    intro b hab _
    cases b with
    | nil => rfl
    | cons y ys => simp [stringLess] at hab
  | cons x xs ih =>
    intro b hab hba
    cases b with
    | nil => simp [stringLess] at hba
    | cons y ys =>
      simp only [stringLess] at hab hba
      by_cases hxy : x < y
      · simp [hxy] at hab
      · by_cases hyx : y < x
        · simp [hyx] at hba
        · simp only [hxy, hyx, if_false] at hab hba
          have : x = y := by omega
          rw [this, ih ys hab hba]

/-- A string not greater than a second one is not greater than anything above the second. -/
theorem stringLess_false_trans (a b c : GoString)
    (hab : stringLess b a = false) (hbc : stringLess c b = false) : stringLess c a = false := by
  cases hca : stringLess c a with
  | false => rfl
  | true =>
    cases hba : stringLess a b with
    | false =>
      have := stringLess_antisymm a b hba hab
      subst this
      rw [hca] at hbc
      exact absurd hbc (by simp)
    | true =>
      have := stringLess_trans c a b hca hba
      rw [this] at hbc
      exact absurd hbc (by simp)

/-- Inserting a string adds it to the list and keeps every other element. -/
theorem insertString_perm (k : GoString) (l : List GoString) :
    (insertString k l).Perm (k :: l) := by
  induction l with
  | nil => exact List.Perm.refl _
  | cons x xs ih =>
    unfold insertString
    split
    · exact List.Perm.refl _
    · exact (List.Perm.cons x ih).trans (List.Perm.swap k x xs)

/-- The result of `sortStrings` holds the same strings as its argument. -/
theorem sortStrings_perm (l : List GoString) : (sortStrings l).Perm l := by
  induction l with
  | nil => exact List.Perm.refl _
  | cons k ks ih => exact (insertString_perm k _).trans (List.Perm.cons k ih)

/-- Inserting a string into an ascending list gives an ascending list. -/
theorem insertString_sorted (k : GoString) (l : List GoString)
    (h : l.Pairwise (fun a b => stringLess b a = false)) :
    (insertString k l).Pairwise (fun a b => stringLess b a = false) := by
  induction l with
  | nil => simp [insertString]
  | cons x xs ih =>
    unfold insertString
    rw [List.pairwise_cons] at h
    by_cases hkx : stringLess k x = true
    · simp only [hkx, if_true]
      rw [List.pairwise_cons]
      refine ⟨?_, List.pairwise_cons.mpr h⟩
      intro b hb
      have hxk : stringLess x k = false := by
        cases hx : stringLess x k with
        | false => rfl
        | true =>
          have := stringLess_trans k x k hkx hx
          rw [stringLess_irrefl] at this
          exact absurd this (by simp)
      rcases List.mem_cons.mp hb with hb | hb
      · rw [hb]; exact hxk
      · exact stringLess_false_trans k x b hxk (h.1 b hb)
    · simp only [hkx, if_false, Bool.false_eq_true]
      rw [List.pairwise_cons]
      refine ⟨?_, ih h.2⟩
      intro b hb
      rcases List.mem_cons.mp ((insertString_perm k xs).subset hb) with hb | hb
      · rw [hb]; simpa using hkx
      · exact h.1 b hb

/-- The result of `sortStrings` is in ascending order: no element is less than an earlier one. -/
theorem sortStrings_sorted (l : List GoString) :
    (sortStrings l).Pairwise (fun a b => stringLess b a = false) := by
  induction l with
  | nil => simp [sortStrings]
  | cons k ks ih => exact insertString_sorted k _ ih

/-- The result of `sortStrings` does not depend on the order of its argument; the order in
which `range` visits the keys of a map has no effect. -/
theorem sortStrings_eq_of_perm (l l' : List GoString) (h : l.Perm l') :
    sortStrings l = sortStrings l' := by
  have hp : (sortStrings l).Perm (sortStrings l') :=
    ((sortStrings_perm l).trans h).trans (sortStrings_perm l').symm
  have : IsAntisymm GoString (fun a b => stringLess b a = false) :=
    ⟨fun a b hab hba => stringLess_antisymm a b hba hab⟩
  exact List.eq_of_perm_of_sorted hp (sortStrings_sorted l) (sortStrings_sorted l')

end Sorting

section Canonical

/-- The entry `sign` of the projection of a record is its `Sign` field. -/
theorem get_sign (s : Signable) : s.ToStringMap.get (lit "sign") = s.Sign := by
  cases s <;> rfl

/-- The literal `&` is the single byte 38. -/
theorem lit_amp : lit "&" = [38] := by decide

/-- The literal `=` is the single byte 61. -/
theorem lit_equals : lit "=" = [61] := by decide

/-- One iteration of the loop appends the text of the pair to the buffer. -/
theorem writePair_eq (m : StrMap) (buff k : GoString) :
    writePair m buff k = buff ++ pairText k (m.get k) := by
  unfold writePair pairText
  by_cases h : TrimSpace (m.get k) = [] <;> simp [h]

/-- The buffer after the loop: the texts of the pairs of the keys, in order. -/
theorem foldl_writePair (m : StrMap) (keys : List GoString) (buff : GoString) :
    keys.foldl (writePair m) buff = buff ++ keys.flatMap (fun k => pairText k (m.get k)) := by
  induction keys generalizing buff with
  | nil => simp
  | cons k ks ih => simp [List.foldl_cons, ih, writePair_eq, List.append_assoc]

/-- The result of `mapToSignString`: the texts of the pairs in ascending key order, with leading
and trailing `&` removed. -/
theorem mapToSignString_eq (m : StrMap) :
    mapToSignString m =
      Trim ((sortStrings m.keys).flatMap (fun k => pairText k (m.get k))) 38 := by
  simp [mapToSignString, foldl_writePair]

/-- Keys whose trimmed value is empty write nothing; the others write `key=trimmed value&`. -/
theorem flatMap_pairText (m : StrMap) (keys : List GoString) :
    keys.flatMap (fun k => pairText k (m.get k)) =
      (keys.filter (fun k => TrimSpace (m.get k) != [])).flatMap
        (fun k => (k ++ lit "=" ++ TrimSpace (m.get k)) ++ [38]) := by
  induction keys with
  | nil => simp
  | cons k ks ih =>
    rw [List.flatMap_cons, ih, List.filter_cons]
    by_cases h : TrimSpace (m.get k) = []
    · simp [h, pairText]
    · simp [h, pairText, lit_amp]

/-- Writing `&` after each element of a non-empty list is joining with `&` and appending `&`. -/
theorem flatMap_sep (l : List GoString) (hl : l ≠ []) :
    l.flatMap (fun x => x ++ [38]) = [38].intercalate l ++ [38] := by
  induction l with
  | nil => exact absurd rfl hl
  | cons x xs ih =>
    cases xs with
    | nil => simp [List.intercalate]
    | cons y ys =>
      have := ih (by simp)
      simp [List.flatMap_cons, List.intercalate, List.intersperse] at this ⊢
      rw [this]

/-- Trimming `&` removes exactly the appended separator from a string that neither begins nor
ends with `&`. -/
theorem Trim_append_sep (J : GoString) (hhead : J.head? ≠ some 38)
    (hlast : J.getLast? ≠ some 38) : Trim (J ++ [38]) 38 = J := by
  unfold Trim
  rw [List.rdropWhile_concat_pos _ _ _ (by simp)]
  have h1 : J.rdropWhile (fun b => b == 38) = J := by
    rw [List.rdropWhile_eq_self_iff]
    intro hne
    intro hp
    apply hlast
    rw [List.getLast?_eq_getLast _ hne]
    simp at hp
    simp [hp]
  rw [h1, List.dropWhile_eq_self_iff]
  intro hpos hp
  apply hhead
  cases J with
  | nil => simp at hpos
  | cons a as =>
    simp at hp
    simp [hp]

end Canonical

section MapOrder

/-- Looking a key up does not depend on the order of the entries of a map. -/
theorem StrMap.get_perm (m m' : StrMap) (h : m.Perm m') (hn : m.keys.Nodup) (k : GoString) :
    m.get k = m'.get k := by
  induction h with
  | nil => rfl
  | cons x _ ih =>
    have hn' := (List.nodup_cons.mp hn).2
    have := ih hn'
    simp only [StrMap.get, List.lookup] at this ⊢
    cases hk : k == x.1 with
    | true => rfl
    | false => simpa using this
  | swap x y l =>
    have hxy : y.1 ≠ x.1 := by
      have := (List.nodup_cons.mp hn).1
      intro heq
      apply this
      simp [StrMap.keys, heq]
    simp only [StrMap.get, List.lookup]
    cases hkx : k == x.1 with
    | true =>
      have h1 : k = x.1 := by simpa using hkx
      have h2 : (k == y.1) = false := by
        rw [h1]
        simpa using fun h => hxy h.symm
      simp [h2]
    | false =>
      cases hky : k == y.1 <;> simp
  | trans h1 _ ih1 ih2 =>
    have hn2 := ((h1.map Prod.fst).nodup_iff).mp hn
    exact (ih1 hn).trans (ih2 hn2)

/-- The result of `mapToSignString` does not depend on the order in which the entries of the
map are stored or visited. -/
theorem mapToSignString_perm (m m' : StrMap) (h : m.Perm m') (hn : m.keys.Nodup) :
    mapToSignString m = mapToSignString m' := by
  rw [mapToSignString_eq, mapToSignString_eq,
    sortStrings_eq_of_perm m.keys m'.keys (h.map Prod.fst)]
  have hf : (fun k => pairText k (m.get k)) = (fun k => pairText k (m'.get k)) := by
    funext k
    rw [StrMap.get_perm m m' h hn k]
  rw [hf]

end MapOrder

section Format

/-- Value of a digit string extended by one digit. -/
theorem decimalValue_append (s : GoString) (d : Nat) :
    decimalValue (s ++ [d]) = 10 * decimalValue s + (d - 48) := by
  simp [decimalValue, List.foldl_append]

/-- With fuel above `n`, `decimalDigits` returns a non-empty string of digits whose value is `n`. -/
theorem decimalDigits_spec (fuel : Nat) : ∀ n, n < fuel →
    decimalDigits fuel n ≠ [] ∧ (∀ d ∈ decimalDigits fuel n, 48 ≤ d ∧ d ≤ 57) ∧
    decimalValue (decimalDigits fuel n) = n := by
  induction fuel with
  | zero => intro n h; omega
  | succ fuel ih =>
    intro n h
    unfold decimalDigits
    by_cases hn : n < 10
    · simp only [hn, if_true]
      refine ⟨by simp, ?_, ?_⟩
      · intro d hd
        simp at hd
        omega
      · simp [decimalValue]
    · simp only [hn, if_false]
      obtain ⟨_, h2, h3⟩ := ih (n / 10) (by omega)
      refine ⟨by simp, ?_, ?_⟩
      · intro d hd
        rcases List.mem_append.mp hd with hd | hd
        · exact h2 d hd
        · simp at hd
          omega
      · rw [decimalValue_append, h3]
        omega

/-- The decimal text of `n` is a non-empty string of digits whose value is `n`. -/
theorem formatBits_spec (n : Nat) :
    formatBits n ≠ [] ∧ (∀ d ∈ formatBits n, 48 ≤ d ∧ d ≤ 57) ∧ decimalValue (formatBits n) = n :=
  decimalDigits_spec (n + 1) n (Nat.lt_succ_self n)

/-- Different natural numbers have different decimal texts. -/
theorem formatBits_injective {m n : Nat} (h : formatBits m = formatBits n) : m = n := by
  have hm := (formatBits_spec m).2.2
  have hn := (formatBits_spec n).2.2
  rw [h] at hm
  omega

/-- Different integers have different decimal texts. -/
theorem FormatInt_injective {i j : Int} (h : FormatInt i = FormatInt j) : i = j := by
  unfold FormatInt at h
  by_cases hi : i < 0 <;> by_cases hj : j < 0
  · simp only [hi, hj, if_true] at h
    have := formatBits_injective (List.cons.inj h).2
    omega
  · simp only [hi, hj, if_true, if_false] at h
    have hmem : (45 : Nat) ∈ formatBits j.natAbs := by rw [← h]; simp
    have := (formatBits_spec j.natAbs).2.1 45 hmem
    omega
  · simp only [hi, hj, if_true, if_false] at h
    have hmem : (45 : Nat) ∈ formatBits i.natAbs := by rw [h]; simp
    have := (formatBits_spec i.natAbs).2.1 45 hmem
    omega
  · simp only [hi, hj, if_false] at h
    have := formatBits_injective h
    omega

/-- Every byte of `FormatInt i` is a digit or the minus sign. -/
theorem FormatInt_bytes (i : Int) : ∀ d ∈ FormatInt i, d = 45 ∨ (48 ≤ d ∧ d ≤ 57) := by
  intro d hd
  unfold FormatInt at hd
  split at hd
  · rcases List.mem_cons.mp hd with hd | hd
    · exact Or.inl hd
    · exact Or.inr ((formatBits_spec _).2.1 d hd)
  · exact Or.inr ((formatBits_spec _).2.1 d hd)

/-- The decimal text of an integer is not empty. -/
theorem FormatInt_ne_nil (i : Int) : FormatInt i ≠ [] := by
  unfold FormatInt
  split
  · simp
  · exact (formatBits_spec _).1

/-- A string that starts with an ASCII byte other than white space has no leading white space. -/
theorem trimLeftSpace_eq_self (a : Nat) (rest : GoString) (ha : a < 128)
    (hs : isSpace1 a = false) : trimLeftSpace (a :: rest) = a :: rest := by
  have h2 : ∀ b, isSpace2 a b = false := by
    intro b
    have : a ≠ 0xC2 := by omega
    simp [isSpace2, this]
  have h3 : ∀ b c, isSpace3 a b c = false := by
    intro b c
    have h1 : a ≠ 0xE1 := by omega
    have h2 : a ≠ 0xE2 := by omega
    have h3 : a ≠ 0xE3 := by omega
    simp [isSpace3, h1, h2, h3]
  unfold trimLeftSpace
  cases rest with
  | nil => simp [hs]
  | cons b rest2 =>
    cases rest2 with
    | nil => simp [hs, h2]
    | cons c rest3 => simp [hs, h2, h3]

/-- A string that ends with an ASCII byte other than white space has no trailing white space. -/
theorem trimRightSpaceRev_eq_self (c : Nat) (rest : GoString) (hc : c < 128)
    (hs : isSpace1 c = false) : trimRightSpaceRev (c :: rest) = c :: rest := by
  have h2 : ∀ b, isSpace2 b c = false := by
    intro b
    have h1 : c ≠ 0x85 := by omega
    have h2 : c ≠ 0xA0 := by omega
    simp [isSpace2, h1, h2]
  have h3 : ∀ a b, isSpace3 a b c = false := by
    intro a b
    have h1 : c ≠ 0x80 := by omega
    have h2 : ¬ (0x80 ≤ c) := by omega
    have h3 : c ≠ 0xA8 := by omega
    have h4 : c ≠ 0xA9 := by omega
    have h5 : c ≠ 0xAF := by omega
    have h6 : c ≠ 0x9F := by omega
    simp [isSpace3, h1, h2, h3, h4, h5, h6]
  unfold trimRightSpaceRev
  cases rest with
  | nil => simp [hs]
  | cons b rest2 =>
    cases rest2 with
    | nil => simp [hs, h2]
    | cons a rest3 => simp [hs, h2, h3]

/-- A string that starts and ends with an ASCII byte other than white space is left as it is
by `TrimSpace`. -/
theorem TrimSpace_eq_self (s : GoString) (a c : Nat) (hhead : s.head? = some a)
    (hlast : s.getLast? = some c) (ha : a < 128) (has : isSpace1 a = false) (hc : c < 128)
    (hcs : isSpace1 c = false) : TrimSpace s = s := by
  unfold TrimSpace trimRightSpace
  cases s with
  | nil => simp at hhead
  | cons x xs =>
    simp at hhead
    subst hhead
    rw [trimLeftSpace_eq_self x xs ha has]
    have hrev : ∃ rest, (x :: xs).reverse = c :: rest := by
      have hne : (x :: xs) ≠ [] := by simp
      refine ⟨((x :: xs).dropLast).reverse, ?_⟩
      have h1 := List.dropLast_append_getLast hne
      have h2 : (x :: xs).getLast hne = c := by
        rw [List.getLast?_eq_getLast _ hne] at hlast
        exact Option.some.inj hlast
      rw [h2] at h1
      conv_lhs => rw [← h1]
      simp
    obtain ⟨rest, hrest⟩ := hrev
    rw [hrest, trimRightSpaceRev_eq_self c rest hc hcs, ← hrest, List.reverse_reverse]

/-- The decimal text of an integer has no surrounding white space. -/
theorem TrimSpace_FormatInt (i : Int) : TrimSpace (FormatInt i) = FormatInt i := by
  have hne := FormatInt_ne_nil i
  have hb := FormatInt_bytes i
  have hsp : ∀ d, d = 45 ∨ (48 ≤ d ∧ d ≤ 57) → d < 128 ∧ isSpace1 d = false := by
    intro d hd
    refine ⟨by omega, ?_⟩
    have h1 : d ≠ 9 := by omega
    have h2 : d ≠ 10 := by omega
    have h3 : d ≠ 11 := by omega
    have h4 : d ≠ 12 := by omega
    have h5 : d ≠ 13 := by omega
    have h6 : d ≠ 32 := by omega
    simp [isSpace1, h1, h2, h3, h4, h5, h6]
  have hh : (FormatInt i).head? = some ((FormatInt i).head hne) :=
    (List.head?_eq_head hne)
  have hl : (FormatInt i).getLast? = some ((FormatInt i).getLast hne) :=
    List.getLast?_eq_getLast _ hne
  have h1 := hsp _ (hb _ (List.head_mem hne))
  have h2 := hsp _ (hb _ (List.getLast_mem hne))
  exact TrimSpace_eq_self _ _ _ hh hl h1.1 h1.2 h2.1 h2.2

/-- The decimal text of an integer does not end with `&`. -/
theorem FormatInt_getLast (i : Int) : (FormatInt i).getLast? ≠ some 38 := by
  have hne := FormatInt_ne_nil i
  rw [List.getLast?_eq_getLast _ hne]
  intro h
  have := FormatInt_bytes i _ (List.getLast_mem hne)
  rw [Option.some.inj h] at this
  omega

end Format

section SignCode

/-- The text of a pair whose key does not begin with `&`, followed by a string that does not
begin with `&`, does not begin with `&`. -/
theorem head_pairText_append (k v Z : GoString) (a : Nat) (hk : k.head? = some a)
    (ha : a ≠ 38) (hZ : Z.head? ≠ some 38) : (pairText k v ++ Z).head? ≠ some 38 := by
  unfold pairText
  split
  · cases k with
    | nil => simp at hk
    | cons x xs =>
      simp at hk
      subst hk
      simpa using ha
  · simpa using hZ

/-- The pair written for a decimal value is always present. -/
theorem pairText_FormatInt (k : GoString) (t : Int) :
    pairText k (FormatInt t) = k ++ lit "=" ++ FormatInt t ++ [38] := by
  unfold pairText
  rw [TrimSpace_FormatInt]
  simp [FormatInt_ne_nil, lit_amp]

/-- The result of trimming `&` from the texts of three pairs and a final decimal pair, for keys
that do not begin with `&`: the final separator is removed and nothing else. -/
theorem Trim_pairs (k1 k2 k3 k4 v1 v2 v3 : GoString) (t : Int) (a1 a2 a3 a4 : Nat)
    (h1 : k1.head? = some a1) (n1 : a1 ≠ 38) (h2 : k2.head? = some a2) (n2 : a2 ≠ 38)
    (h3 : k3.head? = some a3) (n3 : a3 ≠ 38) (h4 : k4.head? = some a4) (n4 : a4 ≠ 38) :
    Trim (pairText k1 v1 ++ (pairText k2 v2 ++ (pairText k3 v3 ++
      (pairText k4 (FormatInt t) ++ [])))) 38 =
    pairText k1 v1 ++ (pairText k2 v2 ++ (pairText k3 v3 ++ (k4 ++ lit "=" ++ FormatInt t))) := by
  rw [pairText_FormatInt]
  have hassoc : pairText k1 v1 ++ (pairText k2 v2 ++ (pairText k3 v3 ++
      (k4 ++ lit "=" ++ FormatInt t ++ [38] ++ []))) =
      (pairText k1 v1 ++ (pairText k2 v2 ++ (pairText k3 v3 ++
        (k4 ++ lit "=" ++ FormatInt t)))) ++ [38] := by
    simp [List.append_assoc]
  rw [hassoc]
  apply Trim_append_sep
  · apply head_pairText_append _ _ _ a1 h1 n1
    apply head_pairText_append _ _ _ a2 h2 n2
    apply head_pairText_append _ _ _ a3 h3 n3
    cases k4 with
    | nil => simp at h4
    | cons x xs =>
      simp at h4
      subst h4
      simpa using n4
  · have hne : k4 ++ lit "=" ++ FormatInt t ≠ [] := by
      simp [FormatInt_ne_nil]
    rw [← List.append_assoc, ← List.append_assoc, List.getLast?_append_of_ne_nil _ hne,
      List.getLast?_append_of_ne_nil _ (FormatInt_ne_nil t)]
    exact FormatInt_getLast t

/-- The string hashed for a `Request`, field by field. -/
theorem request_signCode (r : Request) :
    checkSign_signCode (.request r) =
      pairText (lit "content") r.Content ++ (pairText (lit "platform_code") r.PlatformCode ++
        (pairText (lit "request_no") r.RequestNo ++
          (lit "timestamp" ++ lit "=" ++ FormatInt r.Timestamp))) := by
  unfold checkSign_signCode
  simp only []
  rw [mapToSignString_eq]
  exact Trim_pairs (lit "content") (lit "platform_code") (lit "request_no") (lit "timestamp")
    r.Content r.PlatformCode r.RequestNo r.Timestamp 99 112 114 116
    (by decide) (by decide) (by decide) (by decide) (by decide) (by decide) (by decide)
    (by decide)

/-- The string hashed for a `Container`, field by field. -/
theorem container_signCode (k : Container) :
    checkSign_signCode (.container k) =
      pairText (lit "code") k.Code ++ (pairText (lit "content") k.Content ++
        (pairText (lit "msg") k.Msg ++ (lit "timestamp" ++ lit "=" ++ FormatInt k.Timestamp))) := by
  unfold checkSign_signCode
  simp only []
  rw [mapToSignString_eq]
  exact Trim_pairs (lit "code") (lit "content") (lit "msg") (lit "timestamp")
    k.Code k.Content k.Msg k.Timestamp 99 99 109 116
    (by decide) (by decide) (by decide) (by decide) (by decide) (by decide) (by decide)
    (by decide)

/-- The sign path and the verify path hash the same string. -/
theorem createSign_signString_eq (s : Signable) :
    createSign_signString s = checkSign_signCode s := by
  cases s <;> rfl

/-- The pair written for a non-empty value without surrounding white space. -/
theorem pairText_of_trimmed (k v : GoString) (hne : v ≠ []) (ht : TrimSpace v = v) :
    pairText k v = k ++ lit "=" ++ v ++ lit "&" := by
  unfold pairText
  rw [ht]
  simp [hne]

/-- The text of a pair determines the trimmed value. -/
theorem pairText_injective (k v w : GoString) (h : pairText k v = pairText k w) :
    TrimSpace v = TrimSpace w := by
  unfold pairText at h
  by_cases hv : TrimSpace v = [] <;> by_cases hw : TrimSpace w = []
  · rw [hv, hw]
  · simp [hv, hw] at h
  · simp [hv, hw] at h
  · simp [hv, hw, lit_amp, lit_equals] at h
    exact h

end SignCode

section Verify

variable {Priv Pub : Type}

/-- The cases in which `checkSign` returns true. -/
theorem checkSign_eq_true_iff (P : Crypto Priv Pub) (c : Client Priv Pub) (s : Signable) :
    checkSign P c s = true ↔
      s.Sign ≠ [] ∧ ∃ sig, P.DecodeString s.Sign = .ok sig ∧
        P.VerifyPKCS1v15 c.xpayPublicKey (P.SHA1 (checkSign_signCode s)) sig = none := by
  unfold checkSign
  simp only [get_sign, sha1]
  by_cases hs : s.Sign = []
  · simp [hs]
  · cases hd : P.DecodeString s.Sign with
    | error e => simp [hs, hd]
    | ok sig =>
      cases hv : P.VerifyPKCS1v15 c.xpayPublicKey (P.SHA1 (checkSign_signCode s)) sig with
      | none => simp [hs, hd, hv]
      | some e => simp [hs, hd, hv]

/-- A record that carries the signature of another record and has a different signable string
is rejected, when the signature is accepted for the string of the other record only. -/
theorem checkSign_false_of_signCode_ne (P : Crypto Priv Pub) (c : Client Priv Pub)
    (s t : Signable) (hsign : t.Sign = s.Sign)
    (hexact : ∀ sig text : GoString, P.DecodeString s.Sign = .ok sig →
      P.VerifyPKCS1v15 c.xpayPublicKey (P.SHA1 text) sig = none → text = checkSign_signCode s)
    (hne : checkSign_signCode t ≠ checkSign_signCode s) : checkSign P c t = false := by
  cases h : checkSign P c t with
  | false => rfl
  | true =>
    obtain ⟨_, sig, hdec, hver⟩ := (checkSign_eq_true_iff P c t).mp h
    rw [hsign] at hdec
    exact absurd (hexact sig _ hdec hver) hne

/-- In the small instance the signature of `demoPaid` is accepted for its signed string only. -/
theorem demoPaid_exact : ∀ sig text : GoString,
    demoCrypto.DecodeString (Signable.container demoPaid).Sign = .ok sig →
    demoCrypto.VerifyPKCS1v15 demoClient.xpayPublicKey (demoCrypto.SHA1 text) sig = none →
    text = checkSign_signCode (.container demoPaid) := by
  intro sig text hdec hver
  have h1 : demoCrypto.DecodeString (Signable.container demoPaid).Sign =
      .ok (7 :: demoPaidString) := rfl
  rw [h1] at hdec
  have h2 : sig = 7 :: demoPaidString := (Except.ok.inj hdec).symm
  subst h2
  have h3 : checkSign_signCode (.container demoPaid) = demoPaidString := by decide
  rw [h3]
  simp only [demoCrypto, demoClient] at hver
  split at hver
  · next heq => exact ((List.cons.inj heq).2).symm
  · exact absurd hver (by simp)

end Verify

section Characterisation

variable {Priv Pub D R : Type}

/-- The exact result of the code on every mapping: the trimmed canonical string with every
leading and trailing `&` removed. -/
theorem mapToSignString_eq_Trim (record : StrMap) :
    mapToSignString (record.delete (lit "sign")) = Trim (trimmedCanonicalString record) 38 := by
  rw [mapToSignString_eq, flatMap_pairText]
  unfold trimmedCanonicalString
  simp only [lit_amp]
  generalize (sortStrings (record.delete (lit "sign")).keys).filter
    (fun k => TrimSpace ((record.delete (lit "sign")).get k) != []) = kept
  by_cases hnil : kept = []
  · subst hnil
    rfl
  · have hmap : kept.flatMap
        (fun k => (k ++ lit "=" ++ TrimSpace ((record.delete (lit "sign")).get k)) ++ [38]) =
        (kept.map (fun k => k ++ lit "=" ++ TrimSpace ((record.delete (lit "sign")).get k))).flatMap
          (fun x => x ++ [38]) := by
      simp [List.flatMap, List.map_map, Function.comp_def]
    rw [hmap, flatMap_sep _ (by simpa using hnil)]
    unfold Trim
    rw [List.rdropWhile_concat_pos _ _ _ (by simp)]

/-- The first decimal digit of a positive number is not zero. -/
theorem decimalDigits_head (fuel : Nat) : ∀ n, n < fuel → 0 < n →
    (decimalDigits fuel n).head? ≠ some 48 := by
  induction fuel with
  | zero => intro n h; omega
  | succ fuel ih =>
    intro n h hpos
    unfold decimalDigits
    by_cases hn : n < 10
    · simp only [hn, if_true]
      simp
      omega
    · simp only [hn, if_false]
      have h1 := ih (n / 10) (by omega) (by omega)
      have h2 := (decimalDigits_spec fuel (n / 10) (by omega)).1
      cases hd : decimalDigits fuel (n / 10) with
      | nil => exact absurd hd h2
      | cons x xs =>
        rw [hd] at h1
        simpa using h1

/-- When the request body is built, the request is created and the transport answers with a
status code and a readable body, `request` returns what `request_response` returns on that
status code and body. -/
theorem request_eq_request_response (P : Crypto Priv Pub) (J : Json D R) (N : Net)
    (c : Client Priv Pub) (data : D) (url body respBody : GoString) (StatusCode : Int)
    (result : R)
    (hbody : createRequestBody P J N c data = .ret (.ok body))
    (hnew : N.NewRequest url body = none)
    (hdo : N.Do url body = .ok (StatusCode, .ok respBody)) :
    request P J N c data url result =
      .ret (request_response P J c StatusCode respBody result) := by
  simp [request, hbody, hnew, hdo]

/-- The error paths of `NewClient` that the code handles: a key file that cannot be read and
a PEM block that the x509 parser rejects give no client and the error. -/
theorem NewClient_error_paths {Priv Pub : Type} (F : KeyFiles Priv Pub)
    (platformCode gateway appPrivateKeyPath xpayPublicKeyPath : GoString) (err : GoError) :
    (F.ReadFile appPrivateKeyPath = .error err →
      NewClient F platformCode gateway appPrivateKeyPath xpayPublicKeyPath =
        .ret (none, some err)) ∧
    (∀ pemData der, F.ReadFile appPrivateKeyPath = .ok pemData → F.Decode pemData = some der →
      F.ParsePKCS8PrivateKey der = .error err →
      NewClient F platformCode gateway appPrivateKeyPath xpayPublicKeyPath =
        .ret (none, some err)) := by
  constructor
  · intro h
    simp [NewClient, loadAppPrivateKey, h]
  · intro pemData der h1 h2 h3
    simp [NewClient, loadAppPrivateKey, h1, h2, h3]

/-- The success path of `NewClient`: two readable files, each with a PEM block holding an RSA
key, give a client with both keys and no error. -/
theorem NewClient_success {Priv Pub : Type} (F : KeyFiles Priv Pub)
    (platformCode gateway appPrivateKeyPath xpayPublicKeyPath : GoString)
    (pem1 der1 pem2 der2 : GoString) (priv : Priv) (pub : Pub)
    (h1 : F.ReadFile appPrivateKeyPath = .ok pem1) (h2 : F.Decode pem1 = some der1)
    (h3 : F.ParsePKCS8PrivateKey der1 = .ok (.rsa priv))
    (h4 : F.ReadFile xpayPublicKeyPath = .ok pem2) (h5 : F.Decode pem2 = some der2)
    (h6 : F.ParsePKIXPublicKey der2 = .ok (.rsa pub)) :
    NewClient F platformCode gateway appPrivateKeyPath xpayPublicKeyPath =
      .ret (some { platformCode := platformCode, gateway := gateway, appPrivateKey := priv,
                   xpayPublicKey := pub }, none) := by
  simp [NewClient, loadAppPrivateKey, loadXpayPublicKey, h1, h2, h3, h4, h5, h6]

end Characterisation

section Unwrap

variable {Priv Pub D R : Type}

/-- Claim C1. Whenever the received body deserializes to a `Container` on which `checkSign`
returns false, `ParseNotification` returns the error `sign error` and the response handling of
`request` returns the error `response data sign error`, whatever the code, msg and content of
the `Container` are; the caller's target is returned as it was, for every behaviour of the
content decoder `J.UnmarshalData`, so the content is not decoded into it. -/
theorem unwrap_rejects_invalid_signature (P : Crypto Priv Pub) (J : Json D R)
    (c : Client Priv Pub) (body : GoString) (container : Container) (data : R)
    (hbody : J.UnmarshalContainer body = .ok container)
    (hsign : checkSign P c (.container container) = false) :
    ParseNotification P J c (.ok body) data = (some (.errorString (lit "sign error")), data) ∧
    request_response P J c 200 body data =
      (some (.errorString (lit "response data sign error")), data) := by
  simp [ParseNotification, request_response, hbody, hsign]

/-- Claim C1 on a body whose envelope has status `0000` and a forged signature. -/
theorem unwrap_rejects_invalid_signature_witness :
    demoForged.Code = lit "0000" ∧
    ParseNotification demoCrypto demoJson demoClient (.ok (lit "forged")) (lit "old") =
      (some (.errorString (lit "sign error")), lit "old") ∧
    request_response demoCrypto demoJson demoClient 200 (lit "forged") (lit "old") =
      (some (.errorString (lit "response data sign error")), lit "old") :=
  ⟨by decide, unwrap_rejects_invalid_signature demoCrypto demoJson demoClient (lit "forged")
    demoForged (lit "old") rfl (by decide)⟩

/-- Claim C4. Whenever the received body deserializes to a `Container` on which `checkSign`
returns true and whose code is not `0000`, `ParseNotification` and the response handling of
`request` both return the error with text `ERROR:<code> , <msg>`; the caller's target is
returned as it was, for every behaviour of the content decoder `J.UnmarshalData`, so the
content is not decoded. -/
theorem unwrap_remote_error (P : Crypto Priv Pub) (J : Json D R)
    (c : Client Priv Pub) (body : GoString) (container : Container) (data : R)
    (hbody : J.UnmarshalContainer body = .ok container)
    (hsign : checkSign P c (.container container) = true)
    (hcode : container.Code ≠ lit "0000") :
    ParseNotification P J c (.ok body) data =
      (some (.errorString (lit "ERROR:" ++ container.Code ++ lit " , " ++ container.Msg)), data) ∧
    request_response P J c 200 body data =
      (some (.errorString (lit "ERROR:" ++ container.Code ++ lit " , " ++ container.Msg)), data) := by
  simp [ParseNotification, request_response, hbody, hsign, hcode]

/-- Claim C4 on a signed envelope with status `9999`. -/
theorem unwrap_remote_error_witness :
    ParseNotification demoCrypto demoJson demoClient (.ok (lit "failed")) (lit "old") =
      (some (.errorString (lit "ERROR:9999 , no")), lit "old") ∧
    request_response demoCrypto demoJson demoClient 200 (lit "failed") (lit "old") =
      (some (.errorString (lit "ERROR:9999 , no")), lit "old") :=
  unwrap_remote_error demoCrypto demoJson demoClient (lit "failed") demoFailed (lit "old")
    rfl (by decide) (by decide)

/-- Claim C8. On the same bytes, `ParseNotification` and the response handling of `request`
(status 200) both return what the unwrapper of the specification, `spec_unwrap`, ends in:
a malformed envelope, else an invalid signature, else the remote error with the code and msg,
else the content decode error with the raw content, else success with the decoded target.
The two functions differ only in the message of the signature error. -/
theorem unwrap_same_for_response_and_notification (P : Crypto Priv Pub) (J : Json D R)
    (c : Client Priv Pub) (rawBytes : GoString) (target : R) :
    ParseNotification P J c (.ok rawBytes) target =
      (spec_unwrap P J c rawBytes target).returned (lit "sign error") ∧
    request_response P J c 200 rawBytes target =
      (spec_unwrap P J c rawBytes target).returned (lit "response data sign error") := by
  unfold ParseNotification request_response spec_unwrap
  cases hb : J.UnmarshalContainer rawBytes with
  | error err => simp [hb, UnwrapState.returned]
  | ok k =>
    cases hs : checkSign P c (.container k) with
    | false => simp [hb, hs, UnwrapState.returned]
    | true =>
      by_cases hc : k.Code = lit "0000"
      · rcases hd : J.UnmarshalData k.Content target with ⟨e, t⟩
        cases e <;> simp [hb, hs, UnwrapState.returned, hc, hd]
      · simp [hb, hs, UnwrapState.returned, hc]

/-- Claim C5. `checkSign` is a total function to `Bool`; it returns false when the `Sign`
field is empty and when `Sign` is rejected by the base64 decoder, and when it returns true the
decoded signature passes `rsa.VerifyPKCS1v15` against the SHA-1 digest of `mapToSignString` of
the record's fields without `sign`. -/
theorem checkSign_false_or_verified (P : Crypto Priv Pub) (c : Client Priv Pub) (s : Signable) :
    (s.Sign = [] → checkSign P c s = false) ∧
    (∀ err, P.DecodeString s.Sign = .error err → checkSign P c s = false) ∧
    (checkSign P c s = true →
      ∃ sig, P.DecodeString s.Sign = .ok sig ∧
        P.VerifyPKCS1v15 c.xpayPublicKey
          (P.SHA1 (mapToSignString (s.ToStringMap.delete (lit "sign")))) sig = none) := by
  refine ⟨?_, ?_, ?_⟩
  · intro h
    simp [checkSign, get_sign, h]
  · intro err h
    simp [checkSign, get_sign, h]
  · intro h
    unfold checkSign at h
    simp only [get_sign] at h
    split at h
    · exact absurd h (by simp)
    · split at h
      · exact absurd h (by simp)
      · next sig hsig =>
        refine ⟨sig, hsig, ?_⟩
        split at h
        · exact absurd h (by simp)
        · next hv => simpa [sha1, checkSign_signCode] using hv

/-- Claim C5 on an envelope with an empty signature, with a signature that is not valid text
for the decoder, and with a valid signature. -/
theorem checkSign_false_or_verified_witness :
    checkSign demoCrypto demoClient (.container { demoPaid with Sign := [] }) = false ∧
    checkSign demoCrypto demoClient (.container { demoPaid with Sign := lit "=" }) = false ∧
    ∃ sig, demoCrypto.DecodeString demoPaid.Sign = .ok sig ∧
      demoCrypto.VerifyPKCS1v15 demoClient.xpayPublicKey
        (demoCrypto.SHA1
          (mapToSignString ((Signable.container demoPaid).ToStringMap.delete (lit "sign")))) sig
        = none :=
  ⟨(checkSign_false_or_verified demoCrypto demoClient
      (.container { demoPaid with Sign := [] })).1 rfl,
   (checkSign_false_or_verified demoCrypto demoClient
      (.container { demoPaid with Sign := lit "=" })).2.1 (.library (lit "illegal data")) rfl,
   (checkSign_false_or_verified demoCrypto demoClient (.container demoPaid)).2.2 (by decide)⟩

/-- Claim C10. `createSign` passes to `rsa.SignPKCS1v15` the SHA-1 digest of `mapToSignString`
of the record's `ToStringMap` with the `sign` key deleted, and `checkSign`, when the `Sign`
field is non-empty and decodes, passes to `rsa.VerifyPKCS1v15` the SHA-1 digest of the same
string. The map without `sign` holds the four other fields only, the string is made of the
pairs of those four fields, so no `sign` pair is written. Assigning any value to `Sign` leaves
the result of `createSign` unchanged, and `checkSign` on the record with any `Sign` hashes the
string that `createSign` hashes on the record. -/
theorem sign_and_verify_hash_same_string (P : Crypto Priv Pub) (c : Client Priv Pub)
    (s : Signable) :
    (createSign P c s =
      match P.SignPKCS1v15 c.appPrivateKey
          (P.SHA1 (mapToSignString (s.ToStringMap.delete (lit "sign")))) with
      | .error _ => .panic
      | .ok sign => .ret (P.EncodeToString sign)) ∧
    (checkSign P c s =
      if s.Sign = [] then false
      else
        match P.DecodeString s.Sign with
        | .error _ => false
        | .ok sign =>
          match P.VerifyPKCS1v15 c.xpayPublicKey
              (P.SHA1 (mapToSignString (s.ToStringMap.delete (lit "sign")))) sign with
          | some _ => false
          | none => true) ∧
    createSign_signString s = mapToSignString (s.ToStringMap.delete (lit "sign")) ∧
    checkSign_signCode s = mapToSignString (s.ToStringMap.delete (lit "sign")) ∧
    (match s with
      | .request r =>
        s.ToStringMap.delete (lit "sign") =
          [ (lit "request_no", r.RequestNo), (lit "platform_code", r.PlatformCode),
            (lit "timestamp", FormatInt r.Timestamp), (lit "content", r.Content) ] ∧
        mapToSignString (s.ToStringMap.delete (lit "sign")) =
          pairText (lit "content") r.Content ++ (pairText (lit "platform_code") r.PlatformCode ++
            (pairText (lit "request_no") r.RequestNo ++
              (lit "timestamp" ++ lit "=" ++ FormatInt r.Timestamp)))
      | .container k =>
        s.ToStringMap.delete (lit "sign") =
          [ (lit "timestamp", FormatInt k.Timestamp), (lit "code", k.Code),
            (lit "msg", k.Msg), (lit "content", k.Content) ] ∧
        mapToSignString (s.ToStringMap.delete (lit "sign")) =
          pairText (lit "code") k.Code ++ (pairText (lit "content") k.Content ++
            (pairText (lit "msg") k.Msg ++
              (lit "timestamp" ++ lit "=" ++ FormatInt k.Timestamp)))) ∧
    lit "sign" ∉ (s.ToStringMap.delete (lit "sign")).keys ∧
    (∀ sign : GoString,
      createSign P c (s.setSign sign) = createSign P c s ∧
      (checkSign P c (s.setSign sign) =
        if sign = [] then false
        else
          match P.DecodeString sign with
          | .error _ => false
          | .ok sig =>
            match P.VerifyPKCS1v15 c.xpayPublicKey (P.SHA1 (createSign_signString s)) sig with
            | some _ => false
            | none => true) ∧
      createSign_signString (s.setSign sign) = createSign_signString s ∧
      checkSign_signCode (s.setSign sign) = checkSign_signCode s ∧
      createSign_signString (s.setSign sign) = checkSign_signCode s) := by
  have hc : ∀ t : Signable,
      createSign_signString t = mapToSignString (t.ToStringMap.delete (lit "sign")) := by
    intro t
    cases t <;> rfl
  have hd : ∀ sign : GoString,
      (s.setSign sign).ToStringMap.delete (lit "sign") = s.ToStringMap.delete (lit "sign") := by
    intro sign
    cases s <;> rfl
  have hk : ∀ t : Signable,
      checkSign P c t =
        if t.Sign = [] then false
        else
          match P.DecodeString t.Sign with
          | .error _ => false
          | .ok sign =>
            match P.VerifyPKCS1v15 c.xpayPublicKey
                (P.SHA1 (mapToSignString (t.ToStringMap.delete (lit "sign")))) sign with
            | some _ => false
            | none => true := by
    intro t
    unfold checkSign
    simp only [get_sign, sha1, checkSign_signCode]
  have hs : ∀ sign : GoString, (s.setSign sign).Sign = sign := by
    intro sign
    cases s <;> rfl
  refine ⟨?_, hk s, hc s, rfl, ?_, ?_, ?_⟩
  · simp only [createSign, sha1, hc]
  · cases s with
    | request r => exact ⟨rfl, request_signCode r⟩
    | container k => exact ⟨rfl, container_signCode k⟩
  · cases s
    · show lit "sign" ∉
        [lit "request_no", lit "platform_code", lit "timestamp", lit "content"]
      decide
    · show lit "sign" ∉ [lit "timestamp", lit "code", lit "msg", lit "content"]
      decide
  · intro sign
    refine ⟨?_, ?_, ?_, ?_, ?_⟩
    · simp only [createSign, sha1, hc, hd]
    · rw [hk, hs, hd, hc]
    · rw [hc, hc, hd]
    · simp only [checkSign_signCode, hd]
    · rw [hc, hd]
      rfl

end Unwrap

section Construction

variable {Priv Pub : Type}

/-- Claim C9, evaluated on the code. When the private-key file is readable but holds no PEM
block, or holds a PEM block whose PKCS#8 content is a key of another type than RSA,
`NewClient` panics: it returns neither a client nor an error. -/
theorem NewClient_panics_on_missing_block_or_other_key (F : KeyFiles Priv Pub)
    (platformCode gateway appPrivateKeyPath xpayPublicKeyPath pemData : GoString)
    (hread : F.ReadFile appPrivateKeyPath = .ok pemData)
    (hkey : F.Decode pemData = none ∨
      ∃ der, F.Decode pemData = some der ∧ F.ParsePKCS8PrivateKey der = .ok .other) :
    NewClient F platformCode gateway appPrivateKeyPath xpayPublicKeyPath = .panic := by
  rcases hkey with h | ⟨der, h, hp⟩
  · simp [NewClient, loadAppPrivateKey, hread, h]
  · simp [NewClient, loadAppPrivateKey, hread, h, hp]

/-- Claim C9 on an empty private-key file and on a private-key file with a key that is not
RSA. -/
theorem NewClient_panics_on_missing_block_or_other_key_witness :
    demoKeyFiles.ReadFile (lit "empty.pem") = .ok [] ∧
    NewClient demoKeyFiles (lit "P1") (lit "https://gateway") (lit "empty.pem") (lit "xpay.pem")
      = .panic ∧
    NewClient demoKeyFiles (lit "P1") (lit "https://gateway") (lit "ec.pem") (lit "xpay.pem")
      = .panic :=
  ⟨rfl,
   NewClient_panics_on_missing_block_or_other_key demoKeyFiles (lit "P1") (lit "https://gateway")
     (lit "empty.pem") (lit "xpay.pem") [] rfl (Or.inl rfl),
   NewClient_panics_on_missing_block_or_other_key demoKeyFiles (lit "P1") (lit "https://gateway")
     (lit "ec.pem") (lit "xpay.pem") (lit "PEM:EC") rfl (Or.inr ⟨lit "EC", rfl, rfl⟩)⟩

end Construction

section Canonicalisation

/-- Claim C2 fails as stated. For the mapping with `a` set to ` x `, `mapToSignString` gives
`a=x` and the reference gives `a= x `: the code writes the trimmed value. For the mapping with
`a` set to `x&`, `mapToSignString` gives `a=x` and the reference gives `a=x&`:
`strings.Trim` removes every trailing `&`. -/
theorem mapToSignString_ne_spec_toCanonicalString :
    (mapToSignString (StrMap.delete [(lit "a", lit " x ")] (lit "sign")) = lit "a=x" ∧
      spec_toCanonicalString [(lit "a", lit " x ")] = lit "a= x " ∧
      mapToSignString (StrMap.delete [(lit "a", lit " x ")] (lit "sign")) ≠
        spec_toCanonicalString [(lit "a", lit " x ")]) ∧
    (mapToSignString (StrMap.delete [(lit "a", lit "x&")] (lit "sign")) = lit "a=x" ∧
      spec_toCanonicalString [(lit "a", lit "x&")] = lit "a=x&" ∧
      mapToSignString (StrMap.delete [(lit "a", lit "x&")] (lit "sign")) ≠
        spec_toCanonicalString [(lit "a", lit "x&")]) := by
  decide

/-- Claim C2, amended. For every mapping, the string that `createSign` and `checkSign` derive
from it (delete the `sign` key, then `mapToSignString`) equals the reference with each kept
value rendered in its trimmed form, `trimmedCanonicalString`, provided that reference string
does not itself begin or end with `&`. -/
theorem mapToSignString_eq_trimmedCanonicalString (record : StrMap)
    (hhead : (trimmedCanonicalString record).head? ≠ some 38)
    (hlast : (trimmedCanonicalString record).getLast? ≠ some 38) :
    mapToSignString (record.delete (lit "sign")) = trimmedCanonicalString record := by
  rw [mapToSignString_eq, flatMap_pairText]
  unfold trimmedCanonicalString at hhead hlast ⊢
  simp only [lit_amp] at hhead hlast ⊢
  generalize hk : (sortStrings (record.delete (lit "sign")).keys).filter
    (fun k => TrimSpace ((record.delete (lit "sign")).get k) != []) = kept at hhead hlast ⊢
  by_cases hnil : kept = []
  · subst hnil
    rfl
  · have hmap : kept.flatMap
        (fun k => (k ++ lit "=" ++ TrimSpace ((record.delete (lit "sign")).get k)) ++ [38]) =
        (kept.map (fun k => k ++ lit "=" ++ TrimSpace ((record.delete (lit "sign")).get k))).flatMap
          (fun x => x ++ [38]) := by
      simp [List.flatMap, List.map_map, Function.comp_def]
    rw [hmap, flatMap_sep _ (by simpa using hnil)]
    exact Trim_append_sep _ hhead hlast

/-- Claim C2, amended, on a mapping with a `sign` key, a padded value and an empty value. -/
theorem mapToSignString_eq_trimmedCanonicalString_witness :
    mapToSignString
      (StrMap.delete [(lit "sign", lit "c2ln"), (lit "b", lit " x "), (lit "a", [])] (lit "sign"))
      = trimmedCanonicalString [(lit "sign", lit "c2ln"), (lit "b", lit " x "), (lit "a", [])] ∧
    trimmedCanonicalString [(lit "sign", lit "c2ln"), (lit "b", lit " x "), (lit "a", [])]
      = lit "b=x" :=
  ⟨mapToSignString_eq_trimmedCanonicalString
    [(lit "sign", lit "c2ln"), (lit "b", lit " x "), (lit "a", [])] (by decide) (by decide),
   by decide⟩

end Canonicalisation

section Signing

variable {Priv Pub D R : Type}

/-- Claim C7. For the `Request` that `createRequestBody` builds from a serialized payload, a
request identifier and a platform code that are non-empty and have no leading or trailing
white space, the string that is hashed and signed is exactly
`content=<payload>&platform_code=<code>&request_no=<id>&timestamp=<decimal seconds>`, and
`createRequestBody` passes the SHA-1 digest of that string to `rsa.SignPKCS1v15`. -/
theorem createRequestBody_signed_string (P : Crypto Priv Pub) (J : Json D R) (N : Net)
    (c : Client Priv Pub) (data : D) (dataBytes : GoString)
    (hmarshal : J.MarshalData data = .ok dataBytes)
    (hdata : dataBytes ≠ [] ∧ TrimSpace dataBytes = dataBytes)
    (hid : N.NewV4 ≠ [] ∧ TrimSpace N.NewV4 = N.NewV4)
    (hcode : c.platformCode ≠ [] ∧ TrimSpace c.platformCode = c.platformCode) :
    createSign_signString (.request (createRequestBody_req N c dataBytes)) =
      lit "content=" ++ dataBytes ++ lit "&platform_code=" ++ c.platformCode ++
        lit "&request_no=" ++ N.NewV4 ++ lit "&timestamp=" ++ FormatInt N.Now ∧
    createRequestBody P J N c data =
      match P.SignPKCS1v15 c.appPrivateKey
          (P.SHA1 (lit "content=" ++ dataBytes ++ lit "&platform_code=" ++ c.platformCode ++
            lit "&request_no=" ++ N.NewV4 ++ lit "&timestamp=" ++ FormatInt N.Now)) with
      | .error _ => .panic
      | .ok sign =>
        match J.MarshalRequest
            { RequestNo := N.NewV4, PlatformCode := c.platformCode, Timestamp := N.Now,
              Sign := P.EncodeToString sign, Content := dataBytes } with
        | .error err => .ret (.error err)
        | .ok jsonBytes => .ret (.ok jsonBytes) := by
  have hstr : createSign_signString (.request (createRequestBody_req N c dataBytes)) =
      lit "content=" ++ dataBytes ++ lit "&platform_code=" ++ c.platformCode ++
        lit "&request_no=" ++ N.NewV4 ++ lit "&timestamp=" ++ FormatInt N.Now := by
    rw [createSign_signString_eq, request_signCode]
    simp only [createRequestBody_req]
    rw [pairText_of_trimmed _ _ hdata.1 hdata.2, pairText_of_trimmed _ _ hid.1 hid.2,
      pairText_of_trimmed _ _ hcode.1 hcode.2]
    have e1 : lit "content" ++ lit "=" = lit "content=" := by decide
    have e2 : lit "&" ++ (lit "platform_code" ++ lit "=") = lit "&platform_code=" := by decide
    have e3 : lit "&" ++ (lit "request_no" ++ lit "=") = lit "&request_no=" := by decide
    have e4 : lit "&" ++ (lit "timestamp" ++ lit "=") = lit "&timestamp=" := by decide
    simp only [List.append_assoc]
    rw [← e1, ← e2, ← e3, ← e4]
    simp only [List.append_assoc]
  refine ⟨hstr, ?_⟩
  unfold createRequestBody createSign
  simp only [hmarshal, sha1, hstr]
  cases P.SignPKCS1v15 c.appPrivateKey
      (P.SHA1 (lit "content=" ++ dataBytes ++ lit "&platform_code=" ++ c.platformCode ++
        lit "&request_no=" ++ N.NewV4 ++ lit "&timestamp=" ++ FormatInt N.Now)) with
  | error e => rfl
  | ok sign => rfl

/-- Claim C7 on platform code `P1` and a payload with `trade_no` and `total_amount`. -/
theorem createRequestBody_signed_string_witness :
    createSign_signString (.request (createRequestBody_req demoNet demoClient
        (lit "\x7b\"trade_no\":\"T1\",\"total_amount\":100\x7d"))) =
      lit "content=" ++ lit "\x7b\"trade_no\":\"T1\",\"total_amount\":100\x7d" ++
        lit "&platform_code=" ++ lit "P1" ++ lit "&request_no=" ++
        lit "6ba7b810-9dad-41d1-80b4-00c04fd430c8" ++ lit "&timestamp=" ++ lit "1700000000" :=
  (createRequestBody_signed_string demoCrypto demoJson demoNet demoClient
    (lit "\x7b\"trade_no\":\"T1\",\"total_amount\":100\x7d")
    (lit "\x7b\"trade_no\":\"T1\",\"total_amount\":100\x7d") rfl
    ⟨by decide, by decide⟩ ⟨by decide, by decide⟩ ⟨by decide, by decide⟩).1

/-- Claim C3. For every record and every key pair whose public key accepts the signatures
its private key produces: when the RSA signing call succeeds with `sig`, whose base64 text is
non-empty and decodes back to `sig`, `createSign` returns that text, and the record with its
`Sign` field set to it and every other field unchanged passes `checkSign`. -/
theorem createSign_checkSign_roundtrip (P : Crypto Priv Pub) (c : Client Priv Pub)
    (s : Signable) (sig : GoString)
    (hpair : ∀ hashed sig : GoString, P.SignPKCS1v15 c.appPrivateKey hashed = .ok sig →
      P.VerifyPKCS1v15 c.xpayPublicKey hashed sig = none)
    (hsig : P.SignPKCS1v15 c.appPrivateKey (P.SHA1 (createSign_signString s)) = .ok sig)
    (hcodec : P.DecodeString (P.EncodeToString sig) = .ok sig)
    (htext : P.EncodeToString sig ≠ []) :
    createSign P c s = .ret (P.EncodeToString sig) ∧
    checkSign P c (s.setSign (P.EncodeToString sig)) = true := by
  constructor
  · simp [createSign, sha1, hsig]
  · rw [checkSign_eq_true_iff]
    have hS : (s.setSign (P.EncodeToString sig)).Sign = P.EncodeToString sig := by
      cases s <;> rfl
    have hC : checkSign_signCode (s.setSign (P.EncodeToString sig)) = createSign_signString s := by
      cases s <;> rfl
    rw [hS, hC]
    exact ⟨htext, sig, hcodec, hpair _ _ hsig⟩

/-- Claim C3 on the request built for platform code `P1`. -/
theorem createSign_checkSign_roundtrip_witness :
    createSign demoCrypto demoClient
        (.request (createRequestBody_req demoNet demoClient (lit "T1"))) =
      .ret (demoCrypto.EncodeToString (7 :: lit
        "content=T1&platform_code=P1&request_no=6ba7b810-9dad-41d1-80b4-00c04fd430c8&timestamp=1700000000")) ∧
    checkSign demoCrypto demoClient
      ((Signable.request (createRequestBody_req demoNet demoClient (lit "T1"))).setSign
        (demoCrypto.EncodeToString (7 :: lit
          "content=T1&platform_code=P1&request_no=6ba7b810-9dad-41d1-80b4-00c04fd430c8&timestamp=1700000000")))
      = true :=
  createSign_checkSign_roundtrip demoCrypto demoClient
    (.request (createRequestBody_req demoNet demoClient (lit "T1")))
    (7 :: lit
      "content=T1&platform_code=P1&request_no=6ba7b810-9dad-41d1-80b4-00c04fd430c8&timestamp=1700000000")
    (by
      intro hashed sig h
      have h1 : sig = 7 :: hashed := (Except.ok.inj h).symm
      subst h1
      simp [demoCrypto, demoClient])
    (by
      have h : createSign_signString
          (.request (createRequestBody_req demoNet demoClient (lit "T1"))) = lit
          "content=T1&platform_code=P1&request_no=6ba7b810-9dad-41d1-80b4-00c04fd430c8&timestamp=1700000000" := by
        decide
      rw [h]
      rfl)
    (by rfl) (by decide)

end Signing

section Tamper

variable {Priv Pub : Type}

/-- Claim C6 fails as stated. The envelope `demoPaid` passes `checkSign` under a scheme that
accepts its signature for the signed string only; changing its `Msg` from `ok` to `ok `, a
different value, while keeping the signature still passes `checkSign`. -/
theorem tamper_within_white_space_accepted :
    checkSign demoCrypto demoClient (.container demoPaid) = true ∧
    (∀ sig text : GoString,
      demoCrypto.DecodeString (Signable.container demoPaid).Sign = .ok sig →
      demoCrypto.VerifyPKCS1v15 demoClient.xpayPublicKey (demoCrypto.SHA1 text) sig = none →
      text = checkSign_signCode (.container demoPaid)) ∧
    demoPaid.Msg = lit "ok" ∧
    lit "ok " ≠ demoPaid.Msg ∧
    checkSign demoCrypto demoClient (.container { demoPaid with Msg := lit "ok " }) = true :=
  ⟨by decide, demoPaid_exact, by decide, by decide, by decide⟩

/-- Claim C6, amended. For every signed `Request` or `Container` that `checkSign` accepts,
assuming the signature scheme accepts its signature only for the exact string that was
signed, changing any single non-sign field to a value that differs after white-space trimming
(for the timestamp: to any different value) while keeping the signature makes `checkSign`
return false. -/
theorem tamper_changing_trimmed_field_rejected (P : Crypto Priv Pub) (c : Client Priv Pub)
    (s : Signable) (hacc : checkSign P c s = true)
    (hexact : ∀ sig text : GoString, P.DecodeString s.Sign = .ok sig →
      P.VerifyPKCS1v15 c.xpayPublicKey (P.SHA1 text) sig = none → text = checkSign_signCode s) :
    match s with
    | .request r =>
      (∀ v, TrimSpace v ≠ TrimSpace r.RequestNo →
        checkSign P c (.request { r with RequestNo := v }) = false) ∧
      (∀ v, TrimSpace v ≠ TrimSpace r.PlatformCode →
        checkSign P c (.request { r with PlatformCode := v }) = false) ∧
      (∀ t, t ≠ r.Timestamp →
        checkSign P c (.request { r with Timestamp := t }) = false) ∧
      (∀ v, TrimSpace v ≠ TrimSpace r.Content →
        checkSign P c (.request { r with Content := v }) = false)
    | .container k =>
      (∀ t, t ≠ k.Timestamp →
        checkSign P c (.container { k with Timestamp := t }) = false) ∧
      (∀ v, TrimSpace v ≠ TrimSpace k.Code →
        checkSign P c (.container { k with Code := v }) = false) ∧
      (∀ v, TrimSpace v ≠ TrimSpace k.Msg →
        checkSign P c (.container { k with Msg := v }) = false) ∧
      (∀ v, TrimSpace v ≠ TrimSpace k.Content →
        checkSign P c (.container { k with Content := v }) = false) := by
  cases s with
  | request r =>
    refine ⟨?_, ?_, ?_, ?_⟩
    · intro v hv
      refine checkSign_false_of_signCode_ne P c (.request r)
        (.request { r with RequestNo := v }) rfl hexact ?_
      rw [request_signCode, request_signCode]
      intro h
      exact hv (pairText_injective _ _ _
        (List.append_cancel_right (List.append_cancel_left (List.append_cancel_left h))))
    · intro v hv
      refine checkSign_false_of_signCode_ne P c (.request r)
        (.request { r with PlatformCode := v }) rfl hexact ?_
      rw [request_signCode, request_signCode]
      intro h
      exact hv (pairText_injective _ _ _
        (List.append_cancel_right (List.append_cancel_left h)))
    · intro t ht
      refine checkSign_false_of_signCode_ne P c (.request r)
        (.request { r with Timestamp := t }) rfl hexact ?_
      rw [request_signCode, request_signCode]
      intro h
      exact ht (FormatInt_injective (List.append_cancel_left
        (List.append_cancel_left (List.append_cancel_left (List.append_cancel_left h)))))
    · intro v hv
      refine checkSign_false_of_signCode_ne P c (.request r)
        (.request { r with Content := v }) rfl hexact ?_
      rw [request_signCode, request_signCode]
      intro h
      exact hv (pairText_injective _ _ _ (List.append_cancel_right h))
  | container k =>
    refine ⟨?_, ?_, ?_, ?_⟩
    · intro t ht
      refine checkSign_false_of_signCode_ne P c (.container k)
        (.container { k with Timestamp := t }) rfl hexact ?_
      rw [container_signCode, container_signCode]
      intro h
      exact ht (FormatInt_injective (List.append_cancel_left
        (List.append_cancel_left (List.append_cancel_left (List.append_cancel_left h)))))
    · intro v hv
      refine checkSign_false_of_signCode_ne P c (.container k)
        (.container { k with Code := v }) rfl hexact ?_
      rw [container_signCode, container_signCode]
      intro h
      exact hv (pairText_injective _ _ _ (List.append_cancel_right h))
    · intro v hv
      refine checkSign_false_of_signCode_ne P c (.container k)
        (.container { k with Msg := v }) rfl hexact ?_
      rw [container_signCode, container_signCode]
      intro h
      exact hv (pairText_injective _ _ _
        (List.append_cancel_right (List.append_cancel_left (List.append_cancel_left h))))
    · intro v hv
      refine checkSign_false_of_signCode_ne P c (.container k)
        (.container { k with Content := v }) rfl hexact ?_
      rw [container_signCode, container_signCode]
      intro h
      exact hv (pairText_injective _ _ _
        (List.append_cancel_right (List.append_cancel_left h)))

/-- Claim C6, amended, on a signed envelope whose code, then whose timestamp, is changed. -/
theorem tamper_changing_trimmed_field_rejected_witness :
    checkSign demoCrypto demoClient (.container demoPaid) = true ∧
    checkSign demoCrypto demoClient (.container { demoPaid with Code := lit "9999" }) = false ∧
    checkSign demoCrypto demoClient (.container { demoPaid with Timestamp := 6 }) = false :=
  ⟨by decide,
   (tamper_changing_trimmed_field_rejected demoCrypto demoClient (.container demoPaid)
      (by decide) demoPaid_exact).2.1 (lit "9999") (by decide),
   (tamper_changing_trimmed_field_rejected demoCrypto demoClient (.container demoPaid)
      (by decide) demoPaid_exact).1 6 (by decide)⟩

end Tamper

end Xpay
